import Mathlib

/-!
Verification of the greenlight request gatekeeper and optimistic-mutation
guard against its natural-language specification.

The Go source is shallowly embedded: the PostgreSQL-backed models become
pure functions over an explicit association-list store, machine integers
become `Int`/`Nat`, and fallible operations return `Except`.  Each
definition mirrors one function of the repository; doc comments name the
source location.  Components of the repository whose source is not part of
the snapshot (the rate-limiter middleware and the `internal/validator`
helpers) are modelled from the specification and marked as such.
-/

set_option autoImplicit false

namespace Greenlight

/-- Error values of `internal/data` (`errors.go`): `ErrRecordNotFound` and
`ErrEditConflict`, plus a generic store failure for any other database
error surfaced by the driver. -/
inductive ModelErr where
  | recordNotFound
  | editConflict
  | storeError
  deriving DecidableEq

/-- A row of the `movies` table: the system-owned columns of a stored
movie record (`created_at`, `title`, `year`, `runtime`, `genres`,
`version`), keyed externally by `id`.  `version` starts at 1 and the
database increments it on every successful conditional update. -/
structure MovieRow where
  createdAt : Int
  title : String
  year : Int
  runtime : Int
  genres : List String
  version : Int
  deriving DecidableEq

/-- The `Movie` struct of `internal/data/movies.go`. -/
structure Movie where
  id : Int
  createdAt : Int
  title : String
  year : Int
  runtime : Int
  genres : List String
  version : Int
  deriving DecidableEq

/-- The `movies` table, as an association list from `id` to the stored
row.  The primary key makes the real table's ids unique; theorems that
need uniqueness take it as an explicit `Nodup` hypothesis. -/
abbrev MovieDB := List (Int × MovieRow)

/-- First row of the table whose key equals `id` (the semantics of
`SELECT ... WHERE id = $1` under a unique primary key). -/
def lookupRow (db : MovieDB) (id : Int) : Option MovieRow :=
  match db with
  | [] => none
  | e :: rest => if e.1 = id then some e.2 else lookupRow rest id

/-- The row filter of `MovieModel.Update`'s SQL statement:
`WHERE id = $5 AND version = $6`. -/
def rowMatches (m : Movie) (e : Int × MovieRow) : Bool :=
  e.1 == m.id && e.2.version == m.version

/-- The SET clause of `MovieModel.Update`: `title = $1, year = $2,
runtime = $3, genres = $4, version = version + 1`. -/
def applyMovieChanges (m : Movie) (r : MovieRow) : MovieRow :=
  { r with title := m.title, year := m.year, runtime := m.runtime,
           genres := m.genres, version := r.version + 1 }

/-- Effect of the conditional UPDATE on a single table row: rows matching
the id-and-version condition get the new field values and an incremented
version, all other rows are untouched. -/
def updateFun (m : Movie) (e : Int × MovieRow) : Int × MovieRow :=
  if rowMatches m e then (e.1, applyMovieChanges m e.2) else e

/-- `MovieModel.Update` (movies.go): executes the conditional
`UPDATE ... WHERE id AND version ... RETURNING version` and scans the
returned version into the movie; when the statement touches zero rows the
driver reports `sql.ErrNoRows` and the method returns `ErrEditConflict`.
The first component is the table after the statement ran, the second the
method's result. -/
def movieUpdate (db : MovieDB) (m : Movie) : MovieDB × Except ModelErr Movie :=
  match db.filter (rowMatches m) with
  | [] => (db.map (updateFun m), .error .editConflict)
  | e :: _ => (db.map (updateFun m), .ok { m with version := e.2.version + 1 })

/-- `MovieModel.Get` (movies.go): ids below 1 short-circuit to
`ErrRecordNotFound` without touching the database; otherwise the row is
selected by id.  The boolean records whether a database call was issued. -/
def movieGet (db : MovieDB) (id : Int) : Except ModelErr Movie × Bool :=
  if id < 1 then (.error .recordNotFound, false)
  else
    match lookupRow db id with
    | none => (.error .recordNotFound, true)
    | some r => (.ok ⟨id, r.createdAt, r.title, r.year, r.runtime, r.genres, r.version⟩, true)

/-- Result of `MovieModel.Delete`: the table afterwards, the returned
error (if any), and whether a database call was issued. -/
structure DeleteResult where
  db : MovieDB
  result : Except ModelErr Unit
  storeCalled : Bool

/-- `MovieModel.Delete` (movies.go): ids below 1 short-circuit to
`ErrRecordNotFound` without touching the database; otherwise
`DELETE ... WHERE id = $1` runs and `ErrRecordNotFound` is returned when
`RowsAffected` is zero.  The delete carries no version precondition. -/
def movieDelete (db : MovieDB) (id : Int) : DeleteResult :=
  if id < 1 then ⟨db, .error .recordNotFound, false⟩
  else
    let remaining := db.filter (fun e => !(e.1 == id))
    let rowsAffected := (db.filter (fun e => e.1 == id)).length
    if rowsAffected = 0 then ⟨remaining, .error .recordNotFound, true⟩
    else ⟨remaining, .ok (), true⟩

/-! Helper lemmas about the store embedding. -/

theorem lookupRow_eq_none_iff (db : MovieDB) (id : Int) :
    lookupRow db id = none ↔ ∀ e ∈ db, e.1 ≠ id := by
  induction db with
  | nil => simp [lookupRow]
  | cons e rest ih =>
    simp only [lookupRow]
    by_cases h : e.1 = id
    · simp [h]
    · simp [h, ih]

theorem lookupRow_mem (db : MovieDB) (id : Int) (r : MovieRow)
    (hl : lookupRow db id = some r) : (id, r) ∈ db := by
  induction db with
  | nil => simp [lookupRow] at hl
  | cons e rest ih =>
    simp only [lookupRow] at hl
    by_cases h : e.1 = id
    · rw [if_pos h] at hl
      have he : e = (id, r) := by
        obtain ⟨e1, e2⟩ := e
        simp only [Prod.mk.injEq]
        exact ⟨h, Option.some.inj hl⟩
      rw [← he]
      exact List.mem_cons_self _ _
    · rw [if_neg h] at hl
      exact List.mem_cons_of_mem _ (ih hl)

theorem lookupRow_unique (db : MovieDB) (id : Int) (r : MovieRow)
    (hnd : (db.map Prod.fst).Nodup) (hl : lookupRow db id = some r) :
    ∀ e ∈ db, e.1 = id → e.2 = r := by
  induction db with
  | nil => simp
  | cons e rest ih =>
    simp only [List.map_cons, List.nodup_cons] at hnd
    simp only [lookupRow] at hl
    intro x hx hxid
    rcases List.mem_cons.mp hx with hx | hx
    · subst hx
      rw [if_pos hxid] at hl
      exact Option.some.inj hl
    · by_cases h : e.1 = id
      · exfalso
        apply hnd.1
        rw [h, ← hxid]
        exact List.mem_map_of_mem Prod.fst hx
      · rw [if_neg h] at hl
        exact ih hnd.2 hl x hx hxid

theorem rowMatches_iff (m : Movie) (e : Int × MovieRow) :
    rowMatches m e = true ↔ e.1 = m.id ∧ e.2.version = m.version := by
  simp [rowMatches]

theorem updateFun_fst (m : Movie) (e : Int × MovieRow) :
    (updateFun m e).1 = e.1 := by
  unfold updateFun
  split <;> rfl

theorem map_updateFun_id (db : MovieDB) (m : Movie)
    (h : ∀ e ∈ db, rowMatches m e = false) : db.map (updateFun m) = db := by
  induction db with
  | nil => rfl
  | cons e rest ih =>
    simp only [List.map_cons]
    rw [updateFun, if_neg, ih]
    · exact fun x hx => h x (List.mem_cons_of_mem _ hx)
    · simp [h e (List.mem_cons_self _ _)]

theorem movieUpdate_fst (db : MovieDB) (m : Movie) :
    (movieUpdate db m).1 = db.map (updateFun m) := by
  unfold movieUpdate
  cases db.filter (rowMatches m) <;> rfl

theorem movieUpdate_error_iff (db : MovieDB) (m : Movie) :
    (movieUpdate db m).2 = .error .editConflict ↔
      db.filter (rowMatches m) = [] := by
  unfold movieUpdate
  cases h : db.filter (rowMatches m) <;> simp

theorem filter_rowMatches_cons (db : MovieDB) (m : Movie) (r : MovieRow)
    (hl : lookupRow db m.id = some r) (hv : r.version = m.version) :
    ∃ tail, db.filter (rowMatches m) = (m.id, r) :: tail := by
  induction db with
  | nil => simp [lookupRow] at hl
  | cons e rest ih =>
    simp only [lookupRow] at hl
    by_cases h : e.1 = m.id
    · rw [if_pos h] at hl
      have he2 : e.2 = r := Option.some.inj hl
      have hm : rowMatches m e = true := by
        rw [rowMatches_iff]
        exact ⟨h, by rw [he2, hv]⟩
      refine ⟨rest.filter (rowMatches m), ?_⟩
      rw [List.filter_cons_of_pos hm]
      obtain ⟨e1, e2⟩ := e
      simp_all
    · rw [if_neg h] at hl
      obtain ⟨tail, htail⟩ := ih hl
      by_cases hm : rowMatches m e = true
      · exact absurd ((rowMatches_iff m e).mp hm).1 h
      · refine ⟨tail, ?_⟩
        rw [List.filter_cons_of_neg (by simpa using hm), htail]

theorem lookupRow_map_updateFun_self (db : MovieDB) (m : Movie) (r : MovieRow)
    (hl : lookupRow db m.id = some r) (hv : r.version = m.version) :
    lookupRow (db.map (updateFun m)) m.id = some (applyMovieChanges m r) := by
  induction db with
  | nil => simp [lookupRow] at hl
  | cons e rest ih =>
    simp only [lookupRow] at hl
    simp only [List.map_cons, lookupRow, updateFun_fst]
    by_cases h : e.1 = m.id
    · rw [if_pos h] at hl
      have he2 : e.2 = r := Option.some.inj hl
      rw [if_pos h]
      have hm : rowMatches m e = true := by
        rw [rowMatches_iff]
        exact ⟨h, by rw [he2, hv]⟩
      rw [updateFun, if_pos hm, he2]
    · rw [if_neg h] at hl
      rw [if_neg h]
      exact ih hl

theorem lookupRow_map_updateFun_other (db : MovieDB) (m : Movie) (j : Int)
    (hj : j ≠ m.id) : lookupRow (db.map (updateFun m)) j = lookupRow db j := by
  induction db with
  | nil => rfl
  | cons e rest ih =>
    simp only [List.map_cons, lookupRow, updateFun_fst]
    by_cases h : e.1 = j
    · rw [if_pos h, if_pos h]
      have hm : rowMatches m e = false :=
        Bool.eq_false_iff.mpr (fun hc => hj (by
          rw [← h]
          exact ((rowMatches_iff m e).mp hc).1))
      rw [updateFun, if_neg (by simp [hm])]
    · rw [if_neg h, if_neg h]
      exact ih

/-- C1: a conditional update against the stored version succeeds, applies
the supplied field changes to the stored row, leaves every other row
untouched, and sets and returns a new version equal to the supplied
version plus one. -/
theorem movieUpdate_version_increment (db : MovieDB) (m : Movie) (r : MovieRow)
    (hl : lookupRow db m.id = some r) (hv : r.version = m.version) :
    (movieUpdate db m).2 = .ok { m with version := m.version + 1 }
    ∧ lookupRow (movieUpdate db m).1 m.id = some (applyMovieChanges m r)
    ∧ (applyMovieChanges m r).version = m.version + 1
    ∧ ∀ j, j ≠ m.id → lookupRow (movieUpdate db m).1 j = lookupRow db j := by
  obtain ⟨tail, htail⟩ := filter_rowMatches_cons db m r hl hv
  refine ⟨?_, ?_, ?_, ?_⟩
  · unfold movieUpdate
    rw [htail]
    simp [hv]
  · rw [movieUpdate_fst]
    exact lookupRow_map_updateFun_self db m r hl hv
  · simp [applyMovieChanges, hv]
  · intro j hj
    rw [movieUpdate_fst]
    exact lookupRow_map_updateFun_other db m j hj

/-- A sample stored row at version 5 and a one-movie store, used by the
concrete instantiations below. -/
def sampleRow5 : MovieRow := ⟨0, "orig", 2019, 90, ["old"], 5⟩

/-- Sample one-movie store holding `sampleRow5` under id 1. -/
def sampleDB5 : MovieDB := [(1, sampleRow5)]

/-- Sample update payload expecting version 5. -/
def sampleMovieA : Movie := ⟨1, 0, "first", 2020, 100, ["drama"], 5⟩

/-- Sample update payload expecting version 6. -/
def sampleMovieB : Movie := ⟨1, 0, "second", 2021, 110, ["comedy"], 6⟩

/-- Concrete run of C1: a movie stored at version 5 is updated with
expected version 5 and reaches version 6, then updated with expected
version 6 and reaches version 7. -/
theorem movieUpdate_version_increment_witness :
    (movieUpdate sampleDB5 sampleMovieA).2
      = .ok ⟨1, 0, "first", 2020, 100, ["drama"], 6⟩
    ∧ (movieUpdate (movieUpdate sampleDB5 sampleMovieA).1 sampleMovieB).2
      = .ok ⟨1, 0, "second", 2021, 110, ["comedy"], 7⟩ :=
  ⟨(movieUpdate_version_increment sampleDB5 sampleMovieA sampleRow5 rfl rfl).1,
   (movieUpdate_version_increment (movieUpdate sampleDB5 sampleMovieA).1
      sampleMovieB (applyMovieChanges sampleMovieA sampleRow5) rfl rfl).1⟩

/-- C2: the conditional update reports `ErrEditConflict` exactly when
zero rows match the id-and-version condition, i.e. exactly when the
resource is absent or its stored version differs from the supplied one;
both situations yield the same error, and in that case the store is left
unchanged (the single conditional statement touched no rows and no retry
is made). -/
theorem movieUpdate_editConflict_iff (db : MovieDB) (m : Movie)
    (hnd : (db.map Prod.fst).Nodup) :
    ((movieUpdate db m).2 = .error .editConflict ↔
      lookupRow db m.id = none ∨
        ∃ r, lookupRow db m.id = some r ∧ r.version ≠ m.version)
    ∧ ((movieUpdate db m).2 = .error .editConflict →
        (movieUpdate db m).1 = db) := by
  have hchar : (movieUpdate db m).2 = .error .editConflict ↔
      ∀ e ∈ db, ¬(e.1 = m.id ∧ e.2.version = m.version) := by
    rw [movieUpdate_error_iff, List.filter_eq_nil_iff]
    constructor
    · intro h e he
      rw [← rowMatches_iff]
      exact fun hc => h e he hc
    · intro h e he
      rw [rowMatches_iff]
      exact h e he
  constructor
  · rw [hchar]
    constructor
    · intro h
      cases hl : lookupRow db m.id with
      | none => exact Or.inl rfl
      | some r =>
        refine Or.inr ⟨r, rfl, fun hc => ?_⟩
        exact h (m.id, r) (lookupRow_mem db m.id r hl) ⟨rfl, hc⟩
    · rintro (h | ⟨r, hl, hne⟩) e he hc
      · exact ((lookupRow_eq_none_iff db m.id).mp h e he) hc.1
      · exact hne ((lookupRow_unique db m.id r hnd hl e he hc.1) ▸ hc.2)
  · intro h
    rw [movieUpdate_fst]
    apply map_updateFun_id
    intro e he
    exact Bool.eq_false_iff.mpr
      (fun hc => (hchar.mp h) e he ((rowMatches_iff m e).mp hc))

/-- Concrete run of C2: updating a movie stored at version 5 with
expected version 7 fails with `ErrEditConflict` and leaves the store
unchanged. -/
theorem movieUpdate_editConflict_witness :
    (movieUpdate sampleDB5 ⟨1, 0, "stale", 2020, 100, ["drama"], 7⟩).2
      = .error .editConflict
    ∧ (movieUpdate sampleDB5 ⟨1, 0, "stale", 2020, 100, ["drama"], 7⟩).1
      = sampleDB5 := by
  have h := movieUpdate_editConflict_iff sampleDB5
    ⟨1, 0, "stale", 2020, 100, ["drama"], 7⟩ (by decide)
  have herr := h.1.mpr (Or.inr ⟨sampleRow5, rfl, by decide⟩)
  exact ⟨herr, h.2 herr⟩

/-- C6: delete is by identity only, with no version precondition: it
succeeds exactly when a row with the given id exists, and otherwise
fails with `ErrRecordNotFound` — never with `ErrEditConflict`. -/
theorem movieDelete_identity_only (db : MovieDB) (id : Int)
    (hkeys : ∀ e ∈ db, 1 ≤ e.1) :
    ((movieDelete db id).result = .ok () ↔ ∃ e ∈ db, e.1 = id)
    ∧ ((movieDelete db id).result = .ok () ∨
        (movieDelete db id).result = .error .recordNotFound) := by
  unfold movieDelete
  by_cases hid : id < 1
  · rw [if_pos hid]
    refine ⟨⟨fun h => by simp at h, ?_⟩, Or.inr rfl⟩
    rintro ⟨e, he, hrfl⟩
    exact absurd (hrfl ▸ hkeys e he) (by omega)
  · rw [if_neg hid]
    by_cases hlen : (db.filter (fun e => e.1 == id)).length = 0
    · rw [if_pos hlen]
      have hempty : ∀ e ∈ db, e.1 ≠ id := by
        intro e he
        have := List.filter_eq_nil_iff.mp (List.length_eq_zero.mp hlen) e he
        simpa using this
      refine ⟨⟨fun h => by simp at h, ?_⟩, Or.inr rfl⟩
      rintro ⟨e, he, hrfl⟩
      exact absurd hrfl (hempty e he)
    · rw [if_neg hlen]
      refine ⟨⟨fun _ => ?_, fun _ => rfl⟩, Or.inl rfl⟩
      cases hf : db.filter (fun e => e.1 == id) with
      | nil => exact absurd (by rw [hf]; rfl) hlen
      | cons e tail =>
        have he : e ∈ db.filter (fun e => e.1 == id) := by
          rw [hf]; exact List.mem_cons_self _ _
        refine ⟨e, List.mem_of_mem_filter he, ?_⟩
        simpa using List.of_mem_filter he

/-- Concrete run of C6: deleting id 2 from a store holding only id 1
fails with `ErrRecordNotFound`, deleting id 1 succeeds. -/
theorem movieDelete_identity_only_witness :
    (movieDelete sampleDB5 2).result = .error .recordNotFound
    ∧ (movieDelete sampleDB5 1).result = .ok () := by
  have h2 := movieDelete_identity_only sampleDB5 2 (by decide)
  have h1 := movieDelete_identity_only sampleDB5 1 (by decide)
  refine ⟨?_, h1.1.mpr ⟨_, List.mem_cons_self _ _, rfl⟩⟩
  rcases h2.2 with h | h
  · exact absurd (h2.1.mp h) (by decide)
  · exact h

/-- C10: for every id strictly below 1, both `MovieModel.Get` and
`MovieModel.Delete` return `ErrRecordNotFound` immediately, issuing no
call to the backing store and leaving it unchanged. -/
theorem movieGet_movieDelete_shortcircuit (db : MovieDB) (id : Int)
    (h : id < 1) :
    movieGet db id = (.error .recordNotFound, false)
    ∧ movieDelete db id = ⟨db, .error .recordNotFound, false⟩ := by
  constructor
  · unfold movieGet
    rw [if_pos h]
  · unfold movieDelete
    rw [if_pos h]

/-- Concrete run of C10: id 0 and id -7 short-circuit to
`ErrRecordNotFound` with no store call. -/
theorem movieGet_movieDelete_shortcircuit_witness :
    movieGet sampleDB5 0 = (.error .recordNotFound, false)
    ∧ movieDelete sampleDB5 (-7)
      = ⟨sampleDB5, .error .recordNotFound, false⟩ :=
  ⟨(movieGet_movieDelete_shortcircuit sampleDB5 0 (by decide)).1,
   (movieGet_movieDelete_shortcircuit sampleDB5 (-7) (by decide)).2⟩

/-! Token issuance and revocation (`internal/data/tokens.go`). -/

/-- Go's `len` on a string counts UTF-8 bytes. -/
def goLen (s : String) : Nat := s.utf8ByteSize

/-- The standard RFC 4648 base32 alphabet used by Go's
`crypto/rand.Text`. -/
def base32alphabet : List Char := "ABCDEFGHIJKLMNOPQRSTUVWXYZ234567".toList

/-- Model of `crypto/rand.Text` (Go standard library, called by
`generateToken`): reads 26 bytes from the system randomness source —
here an explicit entropy oracle — and maps each byte `b` to
`base32alphabet[b%32]`, yielding a 26-character string. -/
def randText (entropy : Fin 26 → Nat) : String :=
  ⟨(List.finRange 26).map (fun i => base32alphabet.getD (entropy i % 32) 'A')⟩

/-- A SHA-256 digest.  The hash's internal compression is an external
primitive; the only property the code relies on is that the digest is a
deterministic function of the input, so it is modelled as a constructor
applied to the hashed string. -/
structure Sha256Digest where
  ofInput : String
  deriving DecidableEq

/-- Model of `sha256.Sum256([]byte(s))`. -/
def sha256Sum (s : String) : Sha256Digest := ⟨s⟩

/-- The `Token` struct of tokens.go. -/
structure Token where
  plaintext : String
  hash : Sha256Digest
  userID : Int
  expiry : Int
  scope : String
  deriving DecidableEq

/-- `generateToken` (tokens.go): fills in the user ID, scope and
`expiry = now + ttl`, draws the plaintext from `rand.Text()`, and sets
the hash to the SHA-256 digest of the plaintext. -/
def generateToken (entropy : Fin 26 → Nat) (now userID ttl : Int)
    (scope : String) : Token :=
  let plaintext := randText entropy
  { plaintext := plaintext, hash := sha256Sum plaintext, userID := userID,
    expiry := now + ttl, scope := scope }

/-- A row of the `tokens` table: `(hash, user_id, expiry, scope)`. -/
structure TokenRow where
  hash : Sha256Digest
  userID : Int
  expiry : Int
  scope : String
  deriving DecidableEq

/-- The `tokens` table. -/
abbrev TokenDB := List TokenRow

/-- `TokenModel.Insert` (tokens.go): `INSERT INTO tokens (hash, user_id,
expiry, scope)`. -/
def tokenInsert (db : TokenDB) (t : Token) : TokenDB :=
  db ++ [⟨t.hash, t.userID, t.expiry, t.scope⟩]

/-- `TokenModel.New` (tokens.go): generates a token and inserts its
record, returning both the new table and the token (whose plaintext is
disclosed only here). -/
def tokenNew (db : TokenDB) (entropy : Fin 26 → Nat) (now userID ttl : Int)
    (scope : String) : TokenDB × Token :=
  let token := generateToken entropy now userID ttl scope
  (tokenInsert db token, token)

/-- `TokenModel.DeleteAllForUser` (tokens.go): `DELETE FROM tokens WHERE
scope = $1 AND user_id = $2`; only the error is returned, the store
state is its sole effect. -/
def deleteAllForUser (db : TokenDB) (scope : String) (userID : Int) : TokenDB :=
  db.filter (fun t => !(t.scope == scope && t.userID == userID))

/-! The `internal/validator` package is referenced by the data models but
its source is not part of the snapshot; its two helpers are modelled from
the specification. -/

/-- Modelled from the spec: `internal/validator.Validator` is missing
from the source snapshot.  Per §7, validation failures are field-level,
"accumulated across all violated constraints and returned together as a
field→message mapping", so the validator holds an ordered field→message
list keeping the first message per field. -/
structure Validator where
  errors : List (String × String)
  deriving DecidableEq

/-- Modelled from the spec: `Validator.AddError` records a message under
a field key unless that key already holds one. -/
def Validator.addError (v : Validator) (key msg : String) : Validator :=
  if v.errors.any (fun e => e.1 == key) then v
  else { errors := v.errors ++ [(key, msg)] }

/-- Modelled from the spec: `Validator.Check` records the message when
the checked condition is violated (collected, not fail-fast). -/
def Validator.check (v : Validator) (ok : Bool) (key msg : String) : Validator :=
  if ok then v else v.addError key msg

/-- A validator is valid when it has collected no errors. -/
def Validator.valid (v : Validator) : Bool := v.errors.isEmpty

/-- Modelled from the spec: `validator.PermittedValue` tests membership
in a safelist ("an explicit allow-list of accepted values", glossary). -/
def permittedValue (value : String) (list : List String) : Bool :=
  list.contains value

/-- `ValidateTokenPlaintext` (tokens.go): the plaintext must be provided
and must be exactly 26 bytes long. -/
def validateTokenPlaintext (v : Validator) (tokenPlaintext : String) : Validator :=
  (v.check (tokenPlaintext != "") "token" "must be provided").check
    (goLen tokenPlaintext == 26) "token" "must be 26 bytes long"

/-! Helper lemmas for the token claims. -/

theorem base32_utf8Size :
    ∀ j : Fin 32, (base32alphabet.getD j.val 'A').utf8Size = 1 := by decide

theorem utf8ByteSize_go_eq_length (cs : List Char)
    (h : ∀ c ∈ cs, c.utf8Size = 1) :
    String.utf8ByteSize.go cs = cs.length := by
  induction cs with
  | nil => rfl
  | cons c rest ih =>
    simp only [String.utf8ByteSize.go, List.length_cons]
    rw [ih (fun x hx => h x (List.mem_cons_of_mem _ hx)),
      h c (List.mem_cons_self _ _)]

theorem randText_length (entropy : Fin 26 → Nat) :
    (randText entropy).length = 26 := by
  simp [randText, String.length]

theorem randText_utf8ByteSize (entropy : Fin 26 → Nat) :
    goLen (randText entropy) = 26 := by
  have h : ∀ c ∈ (List.finRange 26).map
      (fun i => base32alphabet.getD (entropy i % 32) 'A'), c.utf8Size = 1 := by
    intro c hc
    obtain ⟨i, _, rfl⟩ := List.mem_map.mp hc
    exact base32_utf8Size ⟨entropy i % 32, Nat.mod_lt _ (by norm_num)⟩
  have hre : goLen (randText entropy) = String.utf8ByteSize.go
      ((List.finRange 26).map
        (fun i => base32alphabet.getD (entropy i % 32) 'A')) := rfl
  rw [hre, utf8ByteSize_go_eq_length _ h]
  simp

theorem addError_ne_nil (v : Validator) (key msg : String) :
    (v.addError key msg).errors ≠ [] := by
  unfold Validator.addError
  split
  · rename_i hany
    intro h
    rw [h] at hany
    simp at hany
  · simp

theorem check_errors_eq_nil (v : Validator) (ok : Bool) (key msg : String) :
    (v.check ok key msg).errors = [] ↔ v.errors = [] ∧ ok = true := by
  cases ok with
  | true => simp [Validator.check]
  | false => simp [Validator.check, addError_ne_nil v key msg]

theorem validateTokenPlaintext_rejects (v : Validator) (s : String)
    (h : s = "" ∨ goLen s ≠ 26) :
    (validateTokenPlaintext v s).valid = false := by
  unfold validateTokenPlaintext Validator.valid
  rw [Bool.eq_false_iff]
  intro hempty
  rw [List.isEmpty_iff, check_errors_eq_nil, check_errors_eq_nil] at hempty
  obtain ⟨⟨_, h1⟩, h2⟩ := hempty
  rcases h with h | h
  · subst h
    simp at h1
  · simp only [beq_iff_eq] at h2
    exact h h2

/-- C3: token issuance returns a plaintext of exactly 26 characters (and
26 bytes) whose persisted hash is the SHA-256 digest of that plaintext;
the persisted record carries `expiry = now + ttl`, the given scope and
user; and the token-format validation rejects any plaintext that is
empty or not exactly 26 bytes long. -/
theorem tokenNew_format_and_persist (db : TokenDB) (entropy : Fin 26 → Nat)
    (now userID ttl : Int) (scope : String) :
    (tokenNew db entropy now userID ttl scope).2.plaintext.length = 26
    ∧ goLen (tokenNew db entropy now userID ttl scope).2.plaintext = 26
    ∧ (tokenNew db entropy now userID ttl scope).2.hash
        = sha256Sum (tokenNew db entropy now userID ttl scope).2.plaintext
    ∧ (tokenNew db entropy now userID ttl scope).1
        = db ++ [⟨sha256Sum (randText entropy), userID, now + ttl, scope⟩]
    ∧ (tokenNew db entropy now userID ttl scope).2.expiry = now + ttl
    ∧ (tokenNew db entropy now userID ttl scope).2.scope = scope
    ∧ (tokenNew db entropy now userID ttl scope).2.userID = userID
    ∧ (∀ v s, s = "" ∨ goLen s ≠ 26 →
        (validateTokenPlaintext v s).valid = false) :=
  ⟨randText_length entropy, randText_utf8ByteSize entropy, rfl, rfl, rfl, rfl,
    rfl, validateTokenPlaintext_rejects⟩

/-- Concrete run of C3: a token issued from the all-zero entropy oracle
has a 26-character plaintext, and the 5-byte plaintext "short" is
rejected by the format validation. -/
theorem tokenNew_format_and_persist_witness :
    (tokenNew [] (fun _ => 0) 100 7 3 "activation").2.plaintext.length = 26
    ∧ (validateTokenPlaintext ⟨[]⟩ "short").valid = false :=
  ⟨(tokenNew_format_and_persist [] (fun _ => 0) 100 7 3 "activation").1,
   (tokenNew_format_and_persist [] (fun _ => 0) 100 7 3
      "activation").2.2.2.2.2.2.2 ⟨[]⟩ "short" (Or.inr (by decide))⟩

/-- C7: revoking all tokens of a user/scope pair is idempotent, leaves
no token of that user and scope in the store, keeps every other token,
and its only effect is the returned store state. -/
theorem deleteAllForUser_idempotent (db : TokenDB) (scope : String)
    (userID : Int) :
    deleteAllForUser (deleteAllForUser db scope userID) scope userID
      = deleteAllForUser db scope userID
    ∧ (∀ t ∈ deleteAllForUser db scope userID,
        ¬(t.scope = scope ∧ t.userID = userID))
    ∧ (∀ t ∈ deleteAllForUser db scope userID, t ∈ db)
    ∧ (∀ t ∈ db, ¬(t.scope = scope ∧ t.userID = userID) →
        t ∈ deleteAllForUser db scope userID) := by
  refine ⟨?_, ?_, ?_, ?_⟩
  · unfold deleteAllForUser
    rw [List.filter_filter]
    simp
  · intro t ht hc
    have := List.of_mem_filter ht
    simp [hc.1, hc.2] at this
  · exact fun t ht => List.mem_of_mem_filter ht
  · intro t ht hnot
    refine List.mem_filter.mpr ⟨ht, ?_⟩
    have hor : ¬t.scope = scope ∨ ¬t.userID = userID := by
      by_cases hs : t.scope = scope
      · exact Or.inr (fun hu => hnot ⟨hs, hu⟩)
      · exact Or.inl hs
    simpa using hor

/-- Sample token store for the concrete run of C7. -/
def sampleTokenDB : TokenDB :=
  [⟨⟨"t1"⟩, 7, 50, "activation"⟩, ⟨⟨"t2"⟩, 7, 60, "authentication"⟩,
   ⟨⟨"t3"⟩, 8, 70, "activation"⟩]

/-- Concrete run of C7: revoking activation tokens of user 7 removes
exactly that token, and running the revocation again changes nothing. -/
theorem deleteAllForUser_idempotent_witness :
    deleteAllForUser (deleteAllForUser sampleTokenDB "activation" 7)
        "activation" 7
      = deleteAllForUser sampleTokenDB "activation" 7
    ∧ deleteAllForUser sampleTokenDB "activation" 7
      = [⟨⟨"t2"⟩, 7, 60, "authentication"⟩, ⟨⟨"t3"⟩, 8, 70, "activation"⟩] :=
  ⟨(deleteAllForUser_idempotent sampleTokenDB "activation" 7).1, rfl⟩

/-! Listing filters and the sort safelist (`internal/data/filters.go`). -/

/-- The `Filters` struct of filters.go, with its `SortSafeList` of
supported sort values. -/
structure Filters where
  page : Int
  pageSize : Int
  sort : String
  sortSafeList : List String

/-- Model of `strings.TrimPrefix(s, "-")`: strips one leading hyphen
when present. -/
def trimDash (s : String) : String :=
  match s.data with
  | '-' :: rest => ⟨rest⟩
  | _ => s

/-- Loop of `Filters.sortColumn` (filters.go): scan the safelist; on the
first match return the sort value with the leading hyphen stripped; the
fall-through `panic("unsafe sort parameter")` that aborts the process is
modelled as `none`. -/
def sortColumnLoop (sort : String) (safe : List String) : Option String :=
  match safe with
  | [] => none
  | v :: rest => if sort = v then some (trimDash sort) else sortColumnLoop sort rest

/-- `Filters.sortColumn` (filters.go). -/
def Filters.sortColumn (f : Filters) : Option String :=
  sortColumnLoop f.sort f.sortSafeList

/-- `ValidateFilters` (filters.go): page and page-size bounds, and the
sort value must be in the safelist. -/
def validateFilters (v : Validator) (f : Filters) : Validator :=
  ((((v.check (decide (0 < f.page)) "page" "must be greater than zero").check
      (decide (f.page ≤ 10000000)) "page" "must be  maximum of 10 million").check
      (decide (0 < f.pageSize)) "page_size" "must be greater than zero").check
      (decide (f.pageSize ≤ 100)) "page_size" "must be a maximum of 100").check
    (permittedValue f.sort f.sortSafeList) "sort" "invalid sort value"

theorem sortColumnLoop_mem (sort : String) (safe : List String)
    (h : sort ∈ safe) : sortColumnLoop sort safe = some (trimDash sort) := by
  induction safe with
  | nil => simp at h
  | cons v rest ih =>
    simp only [sortColumnLoop]
    by_cases hv : sort = v
    · rw [if_pos hv]
    · rw [if_neg hv]
      rcases List.mem_cons.mp h with h | h
      · exact absurd h hv
      · exact ih h

/-- C5: for every `Filters` value accepted by `ValidateFilters` the sort
value is in the safelist and `sortColumn` returns it with the leading
hyphen stripped — the process-aborting branch is unreachable; and a sort
value outside the safelist is reported as a validation error. -/
theorem sortColumn_safe_of_validated (f : Filters) (v : Validator) :
    ((validateFilters v f).valid = true →
      f.sort ∈ f.sortSafeList
      ∧ f.sortColumn = some (trimDash f.sort)
      ∧ f.sortColumn ≠ none)
    ∧ (f.sort ∉ f.sortSafeList → (validateFilters v f).valid = false) := by
  constructor
  · intro h
    have hnil : (validateFilters v f).errors = [] := List.isEmpty_iff.mp h
    unfold validateFilters at hnil
    rw [check_errors_eq_nil] at hnil
    have hmem : f.sort ∈ f.sortSafeList := by
      have hperm := hnil.2
      rw [permittedValue] at hperm
      simpa using hperm
    refine ⟨hmem, ?_, ?_⟩
    · exact sortColumnLoop_mem f.sort f.sortSafeList hmem
    · rw [Filters.sortColumn, sortColumnLoop_mem f.sort f.sortSafeList hmem]
      simp
  · intro hne
    rw [Validator.valid, Bool.eq_false_iff]
    intro hempty
    rw [List.isEmpty_iff] at hempty
    unfold validateFilters at hempty
    rw [check_errors_eq_nil] at hempty
    have hperm := hempty.2
    rw [permittedValue] at hperm
    exact hne (by simpa using hperm)

/-- Concrete run of C5: a validated filter with sort "-id" yields column
"id", and the sort value "year" outside the safelist is a validation
error. -/
theorem sortColumn_safe_of_validated_witness :
    Filters.sortColumn ⟨1, 20, "-id", ["id", "-id", "title"]⟩ = some "id"
    ∧ (validateFilters ⟨[]⟩ ⟨1, 20, "year", ["id", "-id", "title"]⟩).valid
        = false := by
  refine ⟨?_, ?_⟩
  · have h := (sortColumn_safe_of_validated
      ⟨1, 20, "-id", ["id", "-id", "title"]⟩ ⟨[]⟩).1 (by decide)
    exact h.2.1
  · exact (sortColumn_safe_of_validated
      ⟨1, 20, "year", ["id", "-id", "title"]⟩ ⟨[]⟩).2 (by decide)

/-! Rate limiter.  The middleware implementing it is not part of the
source snapshot; only its configuration flags (cmd/api/main.go, defaults
`limiter-rps = 2`, `limiter-burst = 4`) are.  The algorithm is modelled
from the specification (§4.3). -/

/-- Modelled from the spec: a per-client token bucket `{tokens,
lastRefill}`; time is in seconds and token counts are exact rationals. -/
structure RateBucket where
  tokens : Rat
  lastRefill : Rat
  deriving DecidableEq

/-- Modelled from the spec: limiter configuration `{rps, burst}`. -/
structure LimiterConfig where
  rps : Rat
  burst : Rat
  deriving DecidableEq

/-- Default of the `limiter-rps` flag (cmd/api/main.go): 2. -/
def defaultLimiterRps : Rat := 2

/-- Default of the `limiter-burst` flag (cmd/api/main.go): 4. -/
def defaultLimiterBurst : Rat := 4

/-- The configured default limiter. -/
def defaultLimiterConfig : LimiterConfig := ⟨defaultLimiterRps, defaultLimiterBurst⟩

/-- Modelled from the spec: a bucket is created lazily on a client's
first request with a full reservoir (`capacity = burst`). -/
def freshBucket (cfg : LimiterConfig) (now : Rat) : RateBucket :=
  ⟨cfg.burst, now⟩

/-- Modelled from the spec (§4.3): the refill step of an admission
check adds `elapsed * rps` tokens, capped at `burst`. -/
def refillTokens (cfg : LimiterConfig) (b : RateBucket) (now : Rat) : Rat :=
  min cfg.burst (b.tokens + (now - b.lastRefill) * cfg.rps)

/-- Modelled from the spec (§4.3): `Admit` refills the bucket, updates
`lastRefill = now`, and admits iff at least one token is available,
consuming one; rejections are immediate, with no queueing. -/
def admission (cfg : LimiterConfig) (b : RateBucket) (now : Rat) : RateBucket × Bool :=
  let t := refillTokens cfg b now
  if 1 ≤ t then (⟨t - 1, now⟩, true) else (⟨t, now⟩, false)

/-- C4: with the configured defaults rps = 2 and burst = 4, four
immediate admission checks on a fresh bucket succeed, a fifth immediate
check fails, and after 500 ms exactly one further check succeeds; in
general each check refills by `elapsed * rps` capped at `burst`, sets
`lastRefill = now`, and admits iff at least one token is available,
consuming one. -/
theorem rateLimiter_burst_scenario :
    (let cfg := defaultLimiterConfig
     let s1 := admission cfg (freshBucket cfg 0) 0
     let s2 := admission cfg s1.1 0
     let s3 := admission cfg s2.1 0
     let s4 := admission cfg s3.1 0
     let s5 := admission cfg s4.1 0
     let s6 := admission cfg s5.1 (1/2)
     let s7 := admission cfg s6.1 (1/2)
     s1.2 = true ∧ s2.2 = true ∧ s3.2 = true ∧ s4.2 = true ∧ s5.2 = false
       ∧ s6.2 = true ∧ s7.2 = false)
    ∧ (∀ cfg b now, ((admission cfg b now).1.lastRefill = now)
        ∧ ((admission cfg b now).2 = true ↔ 1 ≤ refillTokens cfg b now)
        ∧ ((admission cfg b now).2 = true →
            (admission cfg b now).1.tokens = refillTokens cfg b now - 1)
        ∧ ((admission cfg b now).2 = false →
            (admission cfg b now).1.tokens = refillTokens cfg b now)
        ∧ refillTokens cfg b now
            = min cfg.burst (b.tokens + (now - b.lastRefill) * cfg.rps)) := by
  constructor
  · norm_num [admission, refillTokens, freshBucket, defaultLimiterConfig,
      defaultLimiterRps, defaultLimiterBurst, min_def]
  · intro cfg b now
    refine ⟨?_, ?_, ?_, ?_, rfl⟩ <;>
      · simp only [admission]
        split_ifs with h <;> simp_all

/-- Concrete run of C4: a drained bucket checked one second later is
refilled and stamped with the new refill time. -/
theorem rateLimiter_burst_scenario_witness :
    (admission defaultLimiterConfig ⟨0, 0⟩ 1).1.lastRefill = 1 :=
  (rateLimiter_burst_scenario.2 defaultLimiterConfig ⟨0, 0⟩ 1).1

/-! Password hashing (`internal/data/users.go`). -/

/-- A bcrypt hash value, recording the hashed input and the cost (work
factor) it was computed with; the adaptive hash itself is an external
primitive, and the cost parameter is what the claim concerns. -/
structure BcryptHash where
  input : String
  cost : Nat
  deriving DecidableEq

/-- Model of `bcrypt.GenerateFromPassword(password, cost)`. -/
def bcryptGenerateFromPassword (pw : String) (cost : Nat) : BcryptHash :=
  ⟨pw, cost⟩

/-- The `password` struct of users.go: plaintext pointer and hash. -/
structure Password where
  plaintext : Option String
  hash : Option BcryptHash
  deriving DecidableEq

/-- `password.Set` (users.go): computes the bcrypt hash of the plaintext
with the literal cost 12 — `bcrypt.GenerateFromPassword([]byte(p), 12)`
— and stores hash and plaintext. -/
def passwordSet ( _p : Password) (plaintextPassword : String) : Password :=
  { plaintext := some plaintextPassword,
    hash := some (bcryptGenerateFromPassword plaintextPassword 12) }

/-- C8 counterexample: it is not the case that `password.Set` hashes
with an arbitrary configured work factor — cost 10 refutes it, because
`Set` always passes the literal 12; the application config struct
(cmd/api/main.go) carries no work-factor setting at all. -/
theorem passwordSet_cost_not_configurable :
    ¬ ∀ cost : Nat, (passwordSet ⟨none, none⟩ "pa55word").hash
        = some (bcryptGenerateFromPassword "pa55word" cost) := by
  intro h
  have h10 := h 10
  simp [passwordSet, bcryptGenerateFromPassword] at h10

/-- C8 amended: the password-hashing work factor is the hard-coded
constant 12: for every receiver state and plaintext, `password.Set`
computes the bcrypt hash with cost 12. -/
theorem passwordSet_cost_hardcoded (p : Password) (pw : String) :
    (passwordSet p pw).hash = some (bcryptGenerateFromPassword pw 12)
    ∧ (bcryptGenerateFromPassword pw 12).cost = 12 :=
  ⟨rfl, rfl⟩

/-- Concrete run of the amended C8: setting a concrete password stores a
hash computed with cost 12. -/
theorem passwordSet_cost_hardcoded_witness :
    (passwordSet ⟨none, none⟩ "secret-pw").hash
      = some (bcryptGenerateFromPassword "secret-pw" 12) :=
  (passwordSet_cost_hardcoded ⟨none, none⟩ "secret-pw").1

/-! JSON surface of `User` (`internal/data/users.go`). -/

/-- JSON values, as far as the `User` fields need. -/
inductive JSONValue where
  | str (s : String)
  | int (n : Int)
  | bool (b : Bool)
  deriving DecidableEq

/-- The `User` struct of users.go. -/
structure User where
  id : Int
  createdAt : Int
  name : String
  email : String
  password : Password
  activated : Bool
  version : Int
  deriving DecidableEq

/-- A stand-in JSON encoding of the `password` struct that depends on
every component of it, so the marshalling theorem genuinely shows that
none of it can reach the output. -/
def passwordRepr (p : Password) : String :=
  (p.plaintext.getD "") ++ "|" ++
    (match p.hash with
     | none => ""
     | some h => h.input ++ "#" ++ toString h.cost)

/-- The fields of `User` paired with their JSON struct tags exactly as
annotated in users.go: `Password` and `Version` carry the tag "-". -/
def userTaggedFields (u : User) : List (String × JSONValue) :=
  [("id", .int u.id),
   ("created_at", .int u.createdAt),
   ("name", .str u.name),
   ("email", .str u.email),
   ("-", .str (passwordRepr u.password)),
   ("activated", .bool u.activated),
   ("-", .int u.version)]

/-- `encoding/json` semantics for struct tags: a field whose tag is "-"
is omitted from the output, every other field is emitted under its tag
name. -/
def marshalUser (u : User) : List (String × JSONValue) :=
  (userTaggedFields u).filter (fun f => !(f.1 == "-"))

/-- C9: the JSON encoding of a user contains neither the password nor
the version: two users differing only in those fields encode
identically, and the output consists of exactly the id, created_at,
name, email and activated fields. -/
theorem marshalUser_omits_password_version (u : User)
    (p₁ p₂ : Password) (v₁ v₂ : Int) :
    marshalUser { u with password := p₁, version := v₁ }
      = marshalUser { u with password := p₂, version := v₂ }
    ∧ marshalUser u
      = [("id", .int u.id), ("created_at", .int u.createdAt),
         ("name", .str u.name), ("email", .str u.email),
         ("activated", .bool u.activated)] :=
  ⟨rfl, rfl⟩

/-- Concrete run of C9: a user carrying a plaintext, a hash and version
3 marshals identically to the same user with empty password and version
9. -/
theorem marshalUser_omits_password_version_witness :
    marshalUser ⟨1, 0, "alice", "alice@example.com",
        ⟨some "pw1", some ⟨"pw1", 12⟩⟩, true, 3⟩
      = marshalUser ⟨1, 0, "alice", "alice@example.com",
        ⟨none, none⟩, true, 9⟩ :=
  (marshalUser_omits_password_version
    ⟨1, 0, "alice", "alice@example.com", ⟨none, none⟩, true, 0⟩
    ⟨some "pw1", some ⟨"pw1", 12⟩⟩ ⟨none, none⟩ 3 9).1

end Greenlight
